import Mathlib

/-!
Shallow embedding of the 1bpp2c BMP-to-C-array converter (src/1bpp2c.c).

The converter parses a BMP file header and info header, validates them,
then walks the visual rows of the image, packing each padded row into
ceil(width/8) output bytes (optionally bit-reversed, with the trailing
partial byte masked), and finally emits an optional 2-entry BGR palette.
All arithmetic on C byte values (uint8_t) is modelled on Nat with explicit
truncation modulo 256 where the C types truncate; file reads are modelled
on a List Nat of the input file's bytes.
-/

set_option maxRecDepth 16384

/-- Embeds `pack_lsb` (src/1bpp2c.c lines 50-58): byte bit-order reversal by
three swap steps (half-bytes, pairs, single bits). On uint8_t inputs
(values < 256) every intermediate fits in a byte, so plain Nat bitwise
operations model the C computation exactly. -/
def pack_lsb (b : Nat) : Nat :=
  let b1 := (b &&& 0xF0) >>> 4 ||| (b &&& 0x0F) <<< 4
  let b2 := (b1 &&& 0xCC) >>> 2 ||| (b1 &&& 0x33) <<< 2
  let b3 := (b2 &&& 0xAA) >>> 1 ||| (b2 &&& 0x55) <<< 1
  b3

/-- Embeds line 210: `row_bytes = ((ABS32_U(bi.biWidth) + 31) / 32) * 4`,
the 4-byte padded row stride, as a function of the absolute width. -/
def rowStride (w : Nat) : Nat := ((w + 31) / 32) * 4

/-- Models an `fseek` + `fread` of `n` bytes at offset `off` into a uint8_t
buffer: the available bytes starting at `off` (fewer than `n` when the
file is truncated, as `fread` then returns a short count that the C code
ignores). The `% 256` reflects the uint8_t element type. -/
def readBytes (file : List Nat) (off n : Nat) : List Nat :=
  ((file.drop off).take n).map (fun b => b % 256)

/-- Embeds the body of the packing loop (lines 266-279) for loop counter
`x`: fetch `row[x >> 3]`, bit-reverse it when the FLAG_FLIP (LSB-first)
flag is set, and when `x + 8 > abs_width` apply the last-byte mask
`byte &= 0xFF << (8 - valid_bits)` with `valid_bits = abs_width - x`
(the `% 256` is the truncation of the int-typed mask expression on
assignment back into the uint8_t `byte`). -/
def packRowByte (lsb : Bool) (w : Nat) (row : List Nat) (x : Nat) : Nat :=
  let b0 := row.getD (x >>> 3) 0
  let b1 := if lsb then pack_lsb b0 else b0
  if x + 8 > w then b1 &&& ((0xFF <<< (8 - (w - x))) % 256) else b1

/-- Embeds the inner loop `for (x = 0; x < abs_width; x += 8)` of lines
266-282 as a fuel-indexed recursion: each step with `x < w` emits one
packed byte and advances `x` by 8. The fuel only bounds the number of
iterations; with fuel ≥ the iteration count (as used in `packRow`) the
guard `x < w` is the one that terminates the loop, exactly as in C. -/
def packRowFrom (lsb : Bool) (w : Nat) (row : List Nat) : Nat → Nat → List Nat
  | _, 0 => []
  | x, fuel + 1 =>
    if x < w then packRowByte lsb w row x :: packRowFrom lsb w row (x + 8) fuel else []

/-- The Bit Packer: the byte sequence produced for one row by the loop of
lines 266-282 (`w` iterations of fuel is enough since the loop runs
ceil(w/8) ≤ w times). -/
def packRow (lsb : Bool) (w : Nat) (row : List Nat) : List Nat :=
  packRowFrom lsb w row 0 w

/-- Uppercase hexadecimal digit for a nibble, as produced by `%X`. -/
def hexDigit (n : Nat) : Char :=
  if n < 10 then Char.ofNat (48 + n) else Char.ofNat (55 + n)

/-- `%02X` rendering of a byte value (two uppercase hex digits); the C
arguments all have uint8_t values < 256, where this is exact. -/
def hex2 (b : Nat) : String :=
  String.mk [hexDigit (b / 16 % 16), hexDigit (b % 16)]

/-- The `"0x%02X"` byte-literal rendering used for pixel bytes (line 281)
and on-disk palette bytes (lines 304-305). -/
def byteLit (b : Nat) : String := "0x" ++ hex2 b

/-- Whether a character is a digit or an uppercase hex letter A-F. -/
def isUpperHexDigit (c : Char) : Bool :=
  (48 ≤ c.toNat && c.toNat ≤ 57) || (65 ≤ c.toNat && c.toNat ≤ 70)

/-- Whether a string is `0x` followed by exactly two uppercase
hexadecimal digits, the rendering the spec requires of every emitted
byte literal. -/
def isByteLit (s : String) : Bool :=
  match s.data with
  | ['0', 'x', a, b] => isUpperHexDigit a && isUpperHexDigit b
  | _ => false

/-- Numeric value of one hex digit character (either case). -/
def hexVal (c : Char) : Nat :=
  if 48 ≤ c.toNat ∧ c.toNat ≤ 57 then c.toNat - 48
  else if 97 ≤ c.toNat ∧ c.toNat ≤ 102 then c.toNat - 87
  else if 65 ≤ c.toNat ∧ c.toNat ≤ 70 then c.toNat - 55
  else 0

/-- Numeric value denoted by a C hex literal `0x...` (case-insensitive),
used to state which byte values the emitted literals denote. -/
def litValue (s : String) : Nat :=
  (s.drop 2).data.foldl (fun a c => a * 16 + hexVal c) 0

/-- Embeds the bit-order comment of lines 243-247. The C condition tests
`flag_bits & FLAG_PAL` (the palette flag), so the comment emitted here
follows `palFlag`, with `lsbFlag` (FLAG_FLIP) unused, exactly as in the
source. -/
def bitOrderComment (lsbFlag palFlag : Bool) : String :=
  if palFlag then "// Bit order: LSB first.\n" else "// Bit order: MSB first.\n"

/-- Embeds the output-file header of lines 239-249: padding-bits comment,
width and height macros, bit-order comment, and the opening pixel-array
declaration. -/
def headerText (lsbFlag palFlag : Bool) (absWidth absHeight : Nat) : String :=
  "// BMP_WIDTH may not be a multiple of 8; the last byte of each row may contain unused bits.\n"
  ++ "#define BMP_WIDTH  " ++ toString absWidth ++ "\n"
  ++ "#define BMP_HEIGHT " ++ toString absHeight ++ "\n"
  ++ "\n\n"
  ++ bitOrderComment lsbFlag palFlag
  ++ "unsigned char bmp_data[] = \x7b\n"

/-- Text emitted for one row by the loop of lines 266-282: each packed
byte as `"0x%02X"` followed by `", "` when `x + 8 < abs_width` and by
`",\n"` otherwise (same fuel discipline as `packRowFrom`). -/
def rowTextFrom (lsb : Bool) (w : Nat) (row : List Nat) : Nat → Nat → String
  | _, 0 => ""
  | x, fuel + 1 =>
    if x < w then
      byteLit (packRowByte lsb w row x) ++ (if x + 8 < w then ", " else ",\n")
        ++ rowTextFrom lsb w row (x + 8) fuel
    else ""

/-- Text emitted for one row, starting the loop at `x = 0`. -/
def rowText (lsb : Bool) (w : Nat) (row : List Nat) : String :=
  rowTextFrom lsb w row 0 w

/-- Embeds the row loop of lines 258-283 at the level of packed byte
values: the loop `for (row_idx = 0; row_idx < bi.biHeight; row_idx++)`
runs `biHeight.toNat` times (zero times when the signed height is not
positive), resolves `y` with `flip_vertical = (biHeight > 0)`, seeks to
`bfOffBits + y * row_bytes`, reads `row_bytes` bytes and packs them. -/
def processRows (lsb : Bool) (biHeight biWidth : Int) (bfOffBits : Nat)
    (file : List Nat) : List (List Nat) :=
  let w := biWidth.natAbs
  (List.range biHeight.toNat).map (fun rowIdx =>
    let y := if biHeight > 0 then biHeight.natAbs - 1 - rowIdx else rowIdx
    packRow lsb w (readBytes file (bfOffBits + y * rowStride w) (rowStride w)))

/-- The same row loop at the level of emitted text, closed by the
`"};\n\n"` of line 284. -/
def pixelArrayText (lsb : Bool) (biHeight biWidth : Int) (bfOffBits : Nat)
    (file : List Nat) : String :=
  let w := biWidth.natAbs
  String.join ((List.range biHeight.toNat).map (fun rowIdx =>
    let y := if biHeight > 0 then biHeight.natAbs - 1 - rowIdx else rowIdx
    rowText lsb w (readBytes file (bfOffBits + y * rowStride w) (rowStride w))))
  ++ "\x7d;\n\n"

/-- The fatal error kinds of the conversion (§7 of the design). -/
inductive ConvError where
  | NotBmp
  | UnsupportedDepth
  | UnsupportedCompression
  | UnsupportedPaletteSize
deriving DecidableEq

/-- The fixed default-palette section of lines 292-296, emitted verbatim
when `biClrUsed` is 0 (note the lowercase `0xff` in the source). -/
def defaultPalSection : String :=
  "// color order: blue, green, red \n"
  ++ "unsigned char default_pal[] = \x7b\n"
  ++ "0x00, 0x00, 0x00, \n"
  ++ "0xff, 0xff, 0xff, \n"
  ++ "\x7d;\n\n"

/-- Embeds the palette branch of lines 287-311: `biClrUsed = 0` emits the
fixed default palette; `biClrUsed = 2` seeks to
`bfOffBits - sizeof(RGBQUAD) * 2`, reads two 4-byte BGRX entries and
emits each entry's blue, green, red bytes (offsets 0,1,2 and 4,5,6; the
reserved bytes 3 and 7 are discarded); any other count is the fatal
`Unsupported palette size` error (line 308, `return 1`). -/
def paletteSection (bfOffBits clrUsed : Nat) (file : List Nat) :
    Except ConvError String :=
  if clrUsed = 0 then
    .ok defaultPalSection
  else if clrUsed = 2 then
    .ok ("// color order: blue, green, red \n"
      ++ "unsigned char bmp_pal[] = \x7b\n"
      ++ byteLit ((readBytes file (bfOffBits - 8) 8).getD 0 0) ++ ", "
      ++ byteLit ((readBytes file (bfOffBits - 8) 8).getD 1 0) ++ ", "
      ++ byteLit ((readBytes file (bfOffBits - 8) 8).getD 2 0) ++ ", \n"
      ++ byteLit ((readBytes file (bfOffBits - 8) 8).getD 4 0) ++ ", "
      ++ byteLit ((readBytes file (bfOffBits - 8) 8).getD 5 0) ++ ", "
      ++ byteLit ((readBytes file (bfOffBits - 8) 8).getD 6 0) ++ ", \n"
      ++ "\x7d;\n\n")
  else .error .UnsupportedPaletteSize

/-- The header fields of the input BMP that the program reads
(BITMAPFILEHEADER.bfType/bfOffBits and the BITMAPINFOHEADER fields it
consults), already decoded from their little-endian storage. -/
structure Headers where
  bfType : Nat
  bfOffBits : Nat
  biWidth : Int
  biHeight : Int
  biBitCount : Nat
  biCompression : Nat
  biClrUsed : Nat

/-- Outcome of a run: the process exit code, and the output file's
content, `none` when the output file was never created (the C code only
calls `fopen(outfile, "w")` after all header validation passed). -/
structure RunResult where
  exitCode : Nat
  outFile : Option String

/-- Embeds `main` from successful header read onward (lines 190-311):
the three format validations of lines 191-208 in order (each an early
`return 1` before the output file is opened at line 220), then the
header text, the pixel array, and — when FLAG_PAL is set — the palette
section, whose unsupported-size branch returns 1 after the pixel data
was already written to the output file. -/
def mainSim (lsbFlag palFlag : Bool) (h : Headers) (file : List Nat) : RunResult :=
  if h.bfType ≠ 0x4D42 then ⟨1, none⟩
  else if h.biBitCount ≠ 1 then ⟨1, none⟩
  else if h.biCompression ≠ 0 then ⟨1, none⟩
  else
    let body := headerText lsbFlag palFlag h.biWidth.natAbs h.biHeight.natAbs
      ++ pixelArrayText lsbFlag h.biHeight h.biWidth h.bfOffBits file
    if palFlag then
      match paletteSection h.bfOffBits h.biClrUsed file with
      | .ok p => ⟨0, some (body ++ p)⟩
      | .error _ => ⟨1, some body⟩
    else ⟨0, some body⟩

/-- The 8×2 1bpp pixel payload used by the spec's end-to-end examples:
pixel-data offset 62, row bytes `11110000` and `00001111`, each padded
to a 4-byte stride. With a negative height field the file is top-down,
so file row 0 is visual row 0. -/
def bmp8x2File : List Nat :=
  List.replicate 62 0 ++ [0xF0, 0, 0, 0, 0x0F, 0, 0, 0]

theorem pack_lsb_lt_256 : ∀ b < 256, pack_lsb b < 256 := by decide

theorem mask_step_spec : ∀ v < 8, 1 ≤ v → ∀ b < 256,
    (b &&& ((0xFF <<< (8 - v)) % 256)) % 2 ^ (8 - v) = 0 ∧
    (b &&& ((0xFF <<< (8 - v)) % 256)) / 2 ^ (8 - v) = b / 2 ^ (8 - v) := by decide

theorem getD_lt_256 (row : List Nat) (h : row.all (fun b => b < 256) = true)
    (k : Nat) : row.getD k 0 < 256 := by
  by_cases hk : k < row.length
  · rw [List.getD_eq_getElem row 0 hk]
    have hm := List.all_eq_true.mp h _ (List.getElem_mem hk)
    simpa using hm
  · rw [List.getD_eq_default row 0 (Nat.le_of_not_lt hk)]
    omega

theorem packRowFrom_length (lsb : Bool) (w : Nat) (row : List Nat) :
    ∀ fuel x, w - x ≤ 8 * fuel →
      (packRowFrom lsb w row x fuel).length = (w - x + 7) / 8 := by
  intro fuel
  induction fuel with
  | zero => intro x h; simp [packRowFrom]; omega
  | succ n ih =>
    intro x h
    by_cases hx : x < w
    · rw [packRowFrom, if_pos hx, List.length_cons, ih (x + 8) (by omega)]
      omega
    · rw [packRowFrom, if_neg hx]
      simp
      omega

theorem packRowFrom_getD (lsb : Bool) (w : Nat) (row : List Nat) :
    ∀ k fuel x, x + 8 * k < w → w - x ≤ 8 * fuel →
      (packRowFrom lsb w row x fuel).getD k 0 = packRowByte lsb w row (x + 8 * k) := by
  intro k
  induction k with
  | zero =>
    intro fuel x h hf
    cases fuel with
    | zero => omega
    | succ n =>
      rw [packRowFrom, if_pos (show x < w by omega)]
      simp
  | succ k ih =>
    intro fuel x h hf
    cases fuel with
    | zero => omega
    | succ n =>
      rw [packRowFrom, if_pos (show x < w by omega), List.getD_cons_succ]
      have := ih n (x + 8) (by omega) (by omega)
      rw [this]
      congr 1
      omega

theorem packRow_length (lsb : Bool) (w : Nat) (row : List Nat) :
    (packRow lsb w row).length = (w + 7) / 8 := by
  have := packRowFrom_length lsb w row w 0 (by omega)
  simpa [packRow] using this

theorem packRow_getD (lsb : Bool) (w : Nat) (row : List Nat) (k : Nat)
    (h : 8 * k < w) :
    (packRow lsb w row).getD k 0 = packRowByte lsb w row (8 * k) := by
  have := packRowFrom_getD lsb w row k w 0 (by omega) (by omega)
  simpa [packRow] using this

/-- C1: for every row buffer of byte values and every width w ≥ 1, the Bit
Packer emits exactly ceil(w/8) bytes; byte k comes from row byte k
(`row[x >> 3]` at `x = 8k`), bit-reversed when the LSB-first flag is set;
fully covered bytes (k*8 + 8 ≤ w) are otherwise unmodified; and when
w % 8 ≠ 0 the final byte (index w / 8) has its low 8 - (w % 8) bits
cleared to 0 — the masking applied after the bit-reversal — while its
remaining high bits agree with the (possibly reversed) source byte. -/
theorem bitPacker_C1 (lsb : Bool) (w : Nat) (row : List Nat)
    (hw : 1 ≤ w) (hrow : row.all (fun b => b < 256) = true) :
    (packRow lsb w row).length = (w + 7) / 8 ∧
    (∀ k, k * 8 + 8 ≤ w →
      (packRow lsb w row).getD k 0 =
        (if lsb then pack_lsb (row.getD k 0) else row.getD k 0)) ∧
    (w % 8 ≠ 0 →
      (packRow lsb w row).getD (w / 8) 0 % 2 ^ (8 - w % 8) = 0 ∧
      (packRow lsb w row).getD (w / 8) 0 / 2 ^ (8 - w % 8) =
        (if lsb then pack_lsb (row.getD (w / 8) 0) else row.getD (w / 8) 0)
          / 2 ^ (8 - w % 8)) := by
  refine ⟨packRow_length lsb w row, ?_, ?_⟩
  · intro k hk
    rw [packRow_getD lsb w row k (by omega)]
    rw [packRowByte]
    have hx3 : (8 * k) >>> 3 = k := by
      rw [Nat.shiftRight_eq_div_pow]
      omega
    rw [hx3, if_neg (by omega)]
  · intro hm
    set q := w / 8 with hq
    have hxq : 8 * q < w := by omega
    rw [packRow_getD lsb w row q hxq]
    rw [packRowByte]
    have hx3 : (8 * q) >>> 3 = q := by
      rw [Nat.shiftRight_eq_div_pow]
      omega
    rw [hx3, if_pos (by omega)]
    have hv : w - 8 * q = w % 8 := by omega
    rw [hv]
    have hb0 : row.getD q 0 < 256 := getD_lt_256 row hrow q
    have hb1 : (if lsb then pack_lsb (row.getD q 0) else row.getD q 0) < 256 := by
      cases lsb with
      | false => simpa using hb0
      | true => simpa using pack_lsb_lt_256 _ hb0
    exact mask_step_spec (w % 8) (by omega) (by omega) _ hb1

/-- Witness for C1 at the spec's round-trip example: an all-1 row of
width 10 in LSB-first mode. -/
theorem bitPacker_C1_witness :
    (packRow true 10 [255, 255, 255, 255]).length = (10 + 7) / 8 ∧
    (packRow true 10 [255, 255, 255, 255]).getD (10 / 8) 0 % 2 ^ (8 - 10 % 8) = 0 := by
  have h := bitPacker_C1 true 10 [255, 255, 255, 255] (by decide) (by decide)
  exact ⟨h.1, (h.2.2 (by decide)).1⟩

/-- C2 (code bug): in LSB-first mode the leftmost pixel of each 8-pixel
group sits in bit 0, so for width 10 the real pixels of the second
output byte occupy bits 0-1 and the 6 padding columns occupy bits 2-7.
The claim says masking clears exactly the padding positions, leaving
0x03 for an all-1 row. The code instead masks the low bits after the
reversal (lines 271-279), producing 0xC0: the real-pixel positions are
cleared (0xC0 % 4 = 0 despite all-1 source pixels) and the padding
positions are not (0xC0 / 4 ≠ 0). -/
theorem lsbMasking_C2_bug :
    packRow true 10 [255, 255, 255, 255] = [0xFF, 0xC0] ∧
    0xC0 % 2 ^ 2 = 0 ∧ 0xC0 / 2 ^ 2 ≠ 0 ∧ (0xC0 : Nat) ≠ 0x03 := by decide

/-- C3 (code bug): the row loop `for (row_idx = 0; row_idx < bi.biHeight;
row_idx++)` (line 258) compares against the signed height field, so for
a top-down BMP with height field -2 the loop body never runs and the
pixel array is empty, although |height| = 2 rows should be emitted with
visual row 0 taken from file row 0. -/
theorem topDown_C3_bug :
    processRows false (-2) 8 62 bmp8x2File = [] ∧ ((-2 : Int)).natAbs = 2 :=
  ⟨rfl, rfl⟩

/-- C4: for a bottom-up BMP (positive height field) the program emits one
packed group per visual row; visual row r is packed from the
row-byte-stride bytes read at file offset
pixel-data-offset + (height - 1 - r) * row-byte-stride, and when the
file covers the pixel array that read returns exactly row-byte-stride
bytes. -/
theorem rowExtractor_C4 (lsb : Bool) (biWidth biHeight : Int) (bfOffBits : Nat)
    (file : List Nat) (r : Nat)
    (hpos : 0 < biHeight) (hr : r < biHeight.toNat)
    (hfile : bfOffBits + biHeight.toNat * rowStride biWidth.natAbs ≤ file.length) :
    (processRows lsb biHeight biWidth bfOffBits file).length = biHeight.toNat ∧
    (processRows lsb biHeight biWidth bfOffBits file).getD r [] =
      packRow lsb biWidth.natAbs
        (readBytes file
          (bfOffBits + (biHeight.toNat - 1 - r) * rowStride biWidth.natAbs)
          (rowStride biWidth.natAbs)) ∧
    (readBytes file
        (bfOffBits + (biHeight.toNat - 1 - r) * rowStride biWidth.natAbs)
        (rowStride biWidth.natAbs)).length = rowStride biWidth.natAbs := by
  have hlen : (processRows lsb biHeight biWidth bfOffBits file).length
      = biHeight.toNat := by
    simp [processRows]
  refine ⟨hlen, ?_, ?_⟩
  · rw [List.getD_eq_getElem _ _ (show r < _ by rw [hlen]; exact hr)]
    simp only [processRows, List.getElem_map, List.getElem_range]
    rw [if_pos hpos]
    have hna : biHeight.natAbs = biHeight.toNat := by omega
    rw [hna]
  · have hy1 : biHeight.toNat - 1 - r + 1 ≤ biHeight.toNat := by omega
    have hmul : (biHeight.toNat - 1 - r + 1) * rowStride biWidth.natAbs
        ≤ biHeight.toNat * rowStride biWidth.natAbs :=
      Nat.mul_le_mul_right _ hy1
    have hsucc : (biHeight.toNat - 1 - r + 1) * rowStride biWidth.natAbs
        = (biHeight.toNat - 1 - r) * rowStride biWidth.natAbs
          + rowStride biWidth.natAbs :=
      Nat.succ_mul _ _
    simp only [readBytes, List.length_map, List.length_take, List.length_drop]
    omega

/-- Witness for C4 at the spec's 8×2 example stored bottom-up: height
field 2, pixel data at offset 62, visual row 0 from file row 1. -/
theorem rowExtractor_C4_witness :
    (processRows false 2 8 62 bmp8x2File).length = (2 : Int).toNat ∧
    (processRows false 2 8 62 bmp8x2File).getD 0 [] =
      packRow false (8 : Int).natAbs
        (readBytes bmp8x2File
          (62 + ((2 : Int).toNat - 1 - 0) * rowStride (8 : Int).natAbs)
          (rowStride (8 : Int).natAbs)) ∧
    (readBytes bmp8x2File
        (62 + ((2 : Int).toNat - 1 - 0) * rowStride (8 : Int).natAbs)
        (rowStride (8 : Int).natAbs)).length = rowStride (8 : Int).natAbs :=
  rowExtractor_C4 false 8 2 62 bmp8x2File 0 (by decide) (by decide) (by decide)

/-- C5 (code bug): the bit-order comment of lines 243-247 tests
`flag_bits & FLAG_PAL` instead of `FLAG_FLIP`, so it follows the
palette-emission flag, not the bit-order flag: with the reversal flag
clear and the palette flag set it announces LSB-first (the claim
requires MSB-first there), and with the reversal flag set and the
palette flag clear it announces MSB-first. -/
theorem bitOrderComment_C5_bug :
    bitOrderComment false true = "// Bit order: LSB first.\n" ∧
    bitOrderComment true false = "// Bit order: MSB first.\n" ∧
    bitOrderComment false true ≠ "// Bit order: MSB first.\n" :=
  ⟨rfl, rfl, by decide⟩

/-- C6: `pack_lsb` is an involution on all 256 byte values, and maps
0xA5 to 0xA5 and 0x01 to 0x80. -/
theorem pack_lsb_involution_C6 :
    (∀ b : Fin 256, pack_lsb (pack_lsb b.val) = b.val) ∧
    pack_lsb 0xA5 = 0xA5 ∧ pack_lsb 0x01 = 0x80 := by decide

/-- C7: with palette emission requested, a color-used count of 0 emits
the fixed default palette section — independent of the file contents —
whose literals denote 0x00,0x00,0x00 then 0xFF,0xFF,0xFF; a count of
exactly 2 reads two 4-byte entries starting at pixel-data-offset minus 8
and emits each entry's blue, green, red bytes verbatim with the reserved
bytes discarded; any other count is the fatal UnsupportedPaletteSize
error and the run exits with code 1. -/
theorem paletteResolver_C7 (lsbFlag : Bool) (hdr : Headers)
    (bfOffBits clrUsed : Nat) (file : List Nat)
    (b0 g0 r0 x0 b1 g1 r1 x1 : Nat) (pre rest : List Nat)
    (hb : [b0, g0, r0, x0, b1, g1, r1, x1].all (fun b => b < 256) = true)
    (hpre : pre.length = bfOffBits - 8)
    (hh1 : hdr.bfType = 0x4D42) (hh2 : hdr.biBitCount = 1)
    (hh3 : hdr.biCompression = 0) (hh4 : hdr.biClrUsed = clrUsed)
    (hc0 : clrUsed ≠ 0) (hc2 : clrUsed ≠ 2) :
    (paletteSection bfOffBits 0 file = .ok defaultPalSection) ∧
    (litValue "0x00" = 0x00 ∧ litValue "0xff" = 0xFF) ∧
    (paletteSection bfOffBits 2 (pre ++ ([b0, g0, r0, x0, b1, g1, r1, x1] ++ rest)) =
      .ok ("// color order: blue, green, red \n"
        ++ "unsigned char bmp_pal[] = \x7b\n"
        ++ byteLit b0 ++ ", " ++ byteLit g0 ++ ", " ++ byteLit r0 ++ ", \n"
        ++ byteLit b1 ++ ", " ++ byteLit g1 ++ ", " ++ byteLit r1 ++ ", \n"
        ++ "\x7d;\n\n")) ∧
    (paletteSection bfOffBits clrUsed file = .error .UnsupportedPaletteSize) ∧
    (mainSim lsbFlag true hdr file).exitCode = 1 := by
  have herr : ∀ (off : Nat) (f : List Nat),
      paletteSection off clrUsed f = .error .UnsupportedPaletteSize := by
    intro off f
    unfold paletteSection
    rw [if_neg hc0, if_neg hc2]
  refine ⟨rfl, ⟨by decide, by decide⟩, ?_, herr bfOffBits file, ?_⟩
  · have hall : b0 < 256 ∧ g0 < 256 ∧ r0 < 256 ∧ x0 < 256 ∧
        b1 < 256 ∧ g1 < 256 ∧ r1 < 256 ∧ x1 < 256 := by
      simpa using hb
    obtain ⟨B0, G0, R0, X0, B1, G1, R1, X1⟩ := hall
    have e : readBytes (pre ++ ([b0, g0, r0, x0, b1, g1, r1, x1] ++ rest))
        (bfOffBits - 8) 8 = [b0, g0, r0, x0, b1, g1, r1, x1] := by
      rw [readBytes, List.drop_left' hpre, List.take_left' (by rfl)]
      simp only [List.map_cons, List.map_nil]
      rw [Nat.mod_eq_of_lt B0, Nat.mod_eq_of_lt G0, Nat.mod_eq_of_lt R0,
        Nat.mod_eq_of_lt X0, Nat.mod_eq_of_lt B1, Nat.mod_eq_of_lt G1,
        Nat.mod_eq_of_lt R1, Nat.mod_eq_of_lt X1]
    unfold paletteSection
    rw [if_neg (by decide), if_pos rfl, e]
    rfl
  · unfold mainSim
    rw [if_neg (by simp [hh1]), if_neg (by simp [hh2]), if_neg (by simp [hh3]),
      if_pos rfl, hh4, herr hdr.bfOffBits file]

/-- Valid 1bpp headers whose color-used count is 5, an unsupported
palette size. -/
def hdr7 : Headers := ⟨0x4D42, 62, 8, 1, 1, 0, 5⟩

/-- Witness for C7: color-used 0 yields the fixed default section; a
2-entry on-disk palette is re-emitted channel-wise; color-used 5 makes
the run exit 1. -/
theorem paletteResolver_C7_witness :
    (paletteSection 62 0 bmp8x2File = .ok defaultPalSection) ∧
    (paletteSection 62 2 (List.replicate 54 0 ++ ([1, 2, 3, 4, 5, 6, 7, 8] ++ [])) =
      .ok ("// color order: blue, green, red \n"
        ++ "unsigned char bmp_pal[] = \x7b\n"
        ++ byteLit 1 ++ ", " ++ byteLit 2 ++ ", " ++ byteLit 3 ++ ", \n"
        ++ byteLit 5 ++ ", " ++ byteLit 6 ++ ", " ++ byteLit 7 ++ ", \n"
        ++ "\x7d;\n\n")) ∧
    (mainSim false true hdr7 bmp8x2File).exitCode = 1 := by
  have h := paletteResolver_C7 false hdr7 62 5 bmp8x2File 1 2 3 4 5 6 7 8
    (List.replicate 54 0) [] (by decide) (by simp) rfl rfl rfl rfl
    (by decide) (by decide)
  exact ⟨h.1, h.2.2.1, h.2.2.2.2⟩

/-- C8: whenever the magic field is not 0x4D42, or the bit depth is not
1, or the compression field is nonzero, the run exits nonzero and the
output file is never created (the three validations of lines 191-208 all
run before the output file is opened at line 220). -/
theorem headerValidation_C8 (lsbFlag palFlag : Bool) (hdr : Headers)
    (file : List Nat)
    (hbad : hdr.bfType ≠ 0x4D42 ∨ hdr.biBitCount ≠ 1 ∨ hdr.biCompression ≠ 0) :
    (mainSim lsbFlag palFlag hdr file).exitCode ≠ 0 ∧
    (mainSim lsbFlag palFlag hdr file).outFile = none := by
  unfold mainSim
  by_cases h1 : hdr.bfType ≠ 0x4D42
  · rw [if_pos h1]
    exact ⟨by decide, rfl⟩
  · rw [if_neg h1]
    by_cases h2 : hdr.biBitCount ≠ 1
    · rw [if_pos h2]
      exact ⟨by decide, rfl⟩
    · rw [if_neg h2]
      have h3 : hdr.biCompression ≠ 0 := by tauto
      rw [if_pos h3]
      exact ⟨by decide, rfl⟩

/-- Headers whose magic field holds the bytes of "MB" rather than "BM"
(0x424D instead of little-endian 0x4D42). -/
def hdr8 : Headers := ⟨0x424D, 62, 8, 2, 1, 0, 0⟩

/-- Witness for C8 at a wrong-magic input. -/
theorem headerValidation_C8_witness :
    (mainSim false false hdr8 bmp8x2File).exitCode ≠ 0 ∧
    (mainSim false false hdr8 bmp8x2File).outFile = none :=
  headerValidation_C8 false false hdr8 bmp8x2File (Or.inl (by decide))

/-- Valid 1bpp headers for an 8×1 bottom-up image with pixel data at
offset 62. -/
def hdr9 : Headers := ⟨0x4D42, 62, 8, 1, 1, 0, 0⟩

/-- A 10-byte file: far too short to hold the headers' promised pixel
data at offset 62, i.e. a truncated input. -/
def file9 : List Nat := List.replicate 10 0

/-- C9 (code bug): the row-extraction `fseek`/`fread` results (lines
262-263) are never checked, so on a truncated input the row read
silently comes back short, conversion completes, an output file is
produced and the process exits 0 — there is no fatal IoError path for
truncated pixel data. -/
theorem truncatedRead_C9_bug :
    (mainSim false false hdr9 file9).exitCode = 0 ∧
    ((mainSim false false hdr9 file9).outFile).isSome = true :=
  ⟨rfl, rfl⟩

/-- C10 counterexample: the claim that every emitted byte literal is
`0x` + two uppercase hex digits fails on the default palette: its white
entry is hard-coded as lowercase `0xff` (line 295), while the uppercase
rendering of 255 would be `0xFF`; indeed no `F` occurs anywhere in the
default-palette section. -/
theorem byteLiterals_C10_counterexample :
    defaultPalSection =
      "// color order: blue, green, red \nunsigned char default_pal[] = \x7b\n0x00, 0x00, 0x00, \n0xff, 0xff, 0xff, \n\x7d;\n\n" ∧
    byteLit 255 = "0xFF" ∧
    defaultPalSection.data.all (fun c => c ≠ 'F') = true ∧
    isByteLit "0xff" = false :=
  ⟨rfl, rfl, by decide, by decide⟩

/-- C10 as amended: every byte literal produced by the `"0x%02X"`
renderer — used for all pixel bytes (line 281) and all on-disk palette
bytes (lines 304-305) — is `0x` + exactly two uppercase hex digits, and
the fixed default-palette text renders black as `0x00` (uppercase-valid)
but white as the lowercase `0xff` (still denoting the byte value 255). -/
theorem byteLiterals_C10_amended (b : Nat) (hb : b < 256) :
    isByteLit (byteLit b) = true ∧
    isByteLit "0x00" = true ∧ isByteLit "0xff" = false ∧
    litValue "0xff" = 255 := by
  have h : ∀ x < 256, isByteLit (byteLit x) = true := by decide
  exact ⟨h b hb, by decide, by decide, by decide⟩

/-- Witness for the amended C10 at the byte value 171 (0xAB). -/
theorem byteLiterals_C10_witness :
    isByteLit (byteLit 171) = true ∧
    isByteLit "0x00" = true ∧ isByteLit "0xff" = false ∧
    litValue "0xff" = 255 :=
  byteLiterals_C10_amended 171 (by decide)
